import Mathlib

/-!
Verification of the email-automation pipeline (`src/main.py`) against its
natural-language specification.  The Python functions are shallowly embedded
as executable Lean definitions:

* strings are Lean `String`s (lists of unicode characters);
* a Python `dict` row (Contact Record) is an association list
  `List (String × String)` looked up by `rget`;
* Python floats used for backoff durations are modelled as `ℚ`
  (the concrete powers of 2.0 computed by the program are exact in
  binary floating point, so `ℚ` is faithful on every value that occurs);
* side effects (SMTP connections, `time.sleep`, log writes) are recorded
  as explicit event traces;
* exceptions are modelled with `Except`.
-/

namespace EmailAuto

/-- Python whitespace for `str.strip` / the regex class `\s`
(space, tab, newline, carriage return, vertical tab, form feed). -/
def pyIsSpace (c : Char) : Bool :=
  c == ' ' || c == '\t' || c == '\n' || c == '\r' || c == '\x0b' || c == '\x0c'

/-- `str.strip()` on a character list: drop leading and trailing whitespace. -/
def pyStripChars (l : List Char) : List Char :=
  ((l.dropWhile pyIsSpace).reverse.dropWhile pyIsSpace).reverse

/-- Python `str.strip()`. -/
def pyStrip (s : String) : String :=
  String.mk (pyStripChars s.data)

/-- Python `str.lstrip()`. -/
def pyLstrip (s : String) : String :=
  String.mk (s.data.dropWhile pyIsSpace)

/-- A Contact Record: one CSV row, a mapping from column name to value
(`dict` in the source, embedded as an association list). -/
abbrev Record := List (String × String)

/-- `row.get(k)` — first binding of key `k`, if any. -/
def rget (row : Record) (k : String) : Option String :=
  (List.find? (fun p => p.1 == k) row).map (fun p => p.2)

/-- `row.get(k, d)`. -/
def rgetD (row : Record) (k d : String) : String :=
  (rget row k).getD d

/-- A single-quote character, written by code point. -/
def sq : String := "\x27"

/-- Wrap a string in single quotes (Python `f"...'{x}'..."`). -/
def quoted (s : String) : String := sq ++ s ++ sq

/-!  ## EMAIL_REGEX (src/main.py line 57)

`EMAIL_REGEX = re.compile(r"^[^@]+@[^@]+\.[^@]+$")`, used via
`EMAIL_REGEX.match(email)` on an already-stripped string.

The pattern is transcribed as the existence of a split
`s = local ++ "@" ++ domain` with `local` a nonempty run of non-`@`
characters, `domain` a run of non-`@` characters containing a literal `.`
with at least one character of `domain` before it and at least one after it.
(The stripped input never ends in a newline, so the `$`-before-final-newline
subtlety of Python's `re` cannot arise.) -/
def emailRegexMatch (s : String) : Bool :=
  (List.range s.data.length).any (fun i =>
    decide (0 < i) &&
    (s.data.take i).all (fun c => c != '@') &&
    (s.data.getD i 'x' == '@') &&
    (s.data.drop (i+1)).all (fun c => c != '@') &&
    ((List.range (s.data.drop (i+1)).length).any (fun j =>
      decide (0 < j) && decide (j + 1 < (s.data.drop (i+1)).length) &&
      ((s.data.drop (i+1)).getD j 'x' == '.'))))

/-- The required-columns list of the orchestrator (src/main.py line 375). -/
def requiredFields : List String := ["SNo", "Name", "Email", "Title", "Company"]

/-- `validate_row` (src/main.py lines 150-165): collect one error string per
missing/blank required field, then the email checks; return
`(errors == [], errors)`. -/
def validate_row (row : Record) (required_fields : List String) :
    Bool × List String :=
  let errors := required_fields.foldl (fun errs field =>
    match rget row field with
    | none => errs ++ ["Missing required field " ++ quoted field]
    | some v =>
        if pyStrip v = "" then errs ++ ["Missing required field " ++ quoted field]
        else errs) []
  let email := pyStrip (rgetD row "Email" "")
  let errors :=
    if email = "" then errors ++ ["Email is empty"]
    else if emailRegexMatch email then errors
    else errors ++ ["Invalid email address: " ++ quoted email]
  (errors.isEmpty, errors)

/-- Required-field violation: the field is absent from the row or blank
after trimming (the condition of the loop in `validate_row`). -/
def fieldMissing (row : Record) (field : String) : Bool :=
  match rget row field with
  | none => true
  | some v => pyStrip v == ""

/-- The error strings the email checks of `validate_row` contribute. -/
def emailErrs (row : Record) : List String :=
  let email := pyStrip (rgetD row "Email" "")
  if email = "" then ["Email is empty"]
  else if emailRegexMatch email then []
  else ["Invalid email address: " ++ quoted email]

lemma validate_row_foldl_acc (row : Record) :
    ∀ (req : List String) (acc : List String),
      (req.foldl (fun errs field =>
        match rget row field with
        | none => errs ++ ["Missing required field " ++ quoted field]
        | some v =>
            if pyStrip v = "" then errs ++ ["Missing required field " ++ quoted field]
            else errs) acc) =
      acc ++ (req.filter (fieldMissing row)).map
        (fun f => "Missing required field " ++ quoted f) := by
  intro req
  induction req with
  | nil => intro acc; simp
  | cons f t ih =>
      intro acc
      simp only [List.foldl_cons, List.filter_cons]
      cases h : rget row f with
      | none =>
          have hf : fieldMissing row f = true := by simp [fieldMissing, h]
          rw [ih]; simp [hf]
      | some v =>
          by_cases hv : pyStrip v = ""
          · have hf : fieldMissing row f = true := by simp [fieldMissing, h, hv]
            simp only [hv, if_pos rfl]
            rw [ih]; simp [hf]
          · have hf : fieldMissing row f = false := by simp [fieldMissing, h, hv]
            simp only [if_neg hv]
            rw [ih]; simp [hf]

/-- Characterisation of the error list returned by `validate_row`:
one "Missing required field" entry per violating required field, in the
order of `required_fields`, followed by the email errors. -/
lemma validate_row_errors (row : Record) (req : List String) :
    (validate_row row req).2 =
      (req.filter (fieldMissing row)).map
        (fun f => "Missing required field " ++ quoted f) ++ emailErrs row := by
  unfold validate_row emailErrs
  rw [validate_row_foldl_acc row req []]
  by_cases h1 : pyStrip (rgetD row "Email" "") = ""
  · simp [h1]
  · by_cases h2 : emailRegexMatch (pyStrip (rgetD row "Email" "")) = true
    · simp [h1, h2]
    · simp [h1, h2]

/-!  ## Template rendering (src/main.py lines 167-205)

Python `str.format(**mapping)` / `str.format_map(mapping)` restricted to the
feature subset the program's templates use: literal text, `{{` / `}}` brace
escapes, and plain named fields `{FieldName}`.  A lone `}`/unterminated `{`
raises `ValueError`; a field name absent from the mapping raises
`KeyError(name)` (for `format_map` the `DefaultDict` of the source makes the
lookup total, returning `""`). -/

/-- Exceptions the renderer can raise. -/
inductive FmtError where
  | keyError (key : String)
  | valueError
deriving DecidableEq, Repr

/-- One-pass scanner for `str.format`.  First argument: `none` while in
literal text, `some acc` while inside a `{...}` field with `acc` the
reversed field-name characters read so far. -/
def pfCore (lookup : String → Option String) :
    Option (List Char) → List Char → Except FmtError (List Char)
  | none, [] => Except.ok []
  | none, '{' :: '{' :: rest => (pfCore lookup none rest).map (fun t => '{' :: t)
  | none, '}' :: '}' :: rest => (pfCore lookup none rest).map (fun t => '}' :: t)
  | none, '{' :: rest => pfCore lookup (some []) rest
  | none, '}' :: _ => Except.error FmtError.valueError
  | none, c :: rest => (pfCore lookup none rest).map (fun t => c :: t)
  | some _, [] => Except.error FmtError.valueError
  | some acc, '}' :: rest =>
      match lookup (String.mk acc.reverse) with
      | some v => (pfCore lookup none rest).map (fun t => v.data ++ t)
      | none => Except.error (FmtError.keyError (String.mk acc.reverse))
  | some acc, c :: rest => pfCore lookup (some (c :: acc)) rest

/-- `s.format(**row)`: missing keys raise `KeyError`. -/
def pyFormat (s : String) (row : Record) : Except FmtError String :=
  (pfCore (fun k => rget row k) none s.data).map String.mk

/-- `s.format_map(DefaultDict(**row))`: missing keys yield `""`
(the `DefaultDict.__missing__` hook of the source). -/
def pyFormatMapDefault (s : String) (row : Record) : Except FmtError String :=
  (pfCore (fun k => some (rgetD row k "")) none s.data).map String.mk

/-- `str.splitlines` worker: `cur` holds the reversed current line. -/
def slAux (cur : List Char) : List Char → List (List Char)
  | [] => [cur.reverse]
  | '\r' :: '\n' :: rest => cur.reverse :: (if rest.isEmpty then [] else slAux [] rest)
  | '\r' :: rest => cur.reverse :: (if rest.isEmpty then [] else slAux [] rest)
  | '\n' :: rest => cur.reverse :: (if rest.isEmpty then [] else slAux [] rest)
  | c :: rest => slAux (c :: cur) rest

/-- Python `str.splitlines()` (restricted to the `\n`, `\r`, `\r\n`
terminators; no trailing empty line). -/
def pySplitlines (s : String) : List String :=
  if s.data.isEmpty then [] else (slAux [] s.data).map String.mk

/-- Python `str.lower()` (the template's marker line is ASCII). -/
def pyLower (s : String) : String :=
  String.mk (s.data.map Char.toLower)

/-- Python `str.startswith(pre)`. -/
def pyStartsWith (s pre : String) : Bool :=
  pre.data.isPrefixOf s.data

/-- The four common placeholders given `setdefault` fallbacks
(src/main.py line 180). -/
def safeDefaults : List String := ["Name", "Title", "Company", "SNo"]

/-- `safe_row`: copy of the row with `""` defaults for the four common
placeholder fields. -/
def setdefaults (row : Record) : Record :=
  safeDefaults.foldl (fun r k => if (rget r k).isSome then r else r ++ [(k, "")]) row

/-- Body rendering of `render_template`: `body.format(**safe_row)` inside
`try`, falling back to `format_map(DefaultDict(**safe_row))` when a
`KeyError` is caught (only `KeyError` is caught). -/
def renderBody (body : String) (safe_row : Record) : Except FmtError String :=
  match pyFormat body safe_row with
  | Except.ok s => Except.ok s
  | Except.error (FmtError.keyError _) => pyFormatMapDefault body safe_row
  | Except.error FmtError.valueError => Except.error FmtError.valueError

/-- `render_template` (src/main.py lines 167-205).  If the first line starts
(case-insensitively) with `Subject:`, its remainder is rendered with
`str.format` — note: NOT guarded by the `try/except KeyError` that protects
the body — and the rest of the text, `lstrip`ped, becomes the body template;
otherwise the whole text is the body and a default subject is synthesised. -/
def render_template (template : String) (row : Record) :
    Except FmtError (String × String) :=
  let safe_row := setdefaults row
  let lines := pySplitlines template
  match lines with
  | line0 :: rest =>
    if pyStartsWith (pyLower line0) "subject:" then
      match pyFormat (pyStrip (line0.drop 8)) safe_row with
      | Except.error e => Except.error e
      | Except.ok subject =>
          (renderBody (pyLstrip (String.intercalate "\n" rest)) safe_row).map
            (fun b => (subject, b))
    else
      (renderBody template safe_row).map
        (fun b => ("Hello " ++ rgetD safe_row "Name" "" ++ " — Opportunity to connect", b))
  | [] =>
      (renderBody template safe_row).map
        (fun b => ("Hello " ++ rgetD safe_row "Name" "" ++ " — Opportunity to connect", b))

/-!  ## Mail dispatch (src/main.py lines 230-312)

The SMTP transport is external to the repository, so one live delivery
attempt is abstracted as an oracle `res : Nat → SmtpResult` giving, for each
0-based attempt index, whether the `with smtplib.SMTP ... send_message`
block succeeds, raises a transient error (`smtplib.SMTPException` /
`socket.error`) or raises any other exception.  Side effects are recorded
as an event trace. -/

/-- Outcome of one SMTP connection/transmission attempt. -/
inductive SmtpResult where
  | success
  | transient (e : String)
  | fatal (e : String)
deriving DecidableEq, Repr

/-- Observable side effects of `send_email`:
a connection attempt (`net`, 0-based index) or a `time.sleep` of `d`
seconds. -/
inductive Ev where
  | net (attempt : Nat)
  | slept (d : ℚ)
deriving DecidableEq, Repr

/-- `true` exactly on connection events. -/
def Ev.isNet : Ev → Bool
  | Ev.net _ => true
  | Ev.slept _ => false

/-- The retry loop of `send_email` (src/main.py lines 290-312).

The Python loop is `attempt = 0; while attempt < max_retries: ...` with
`attempt += 1` on a transient error; it is translated structurally on the
remaining-iteration count `fuel = max_retries - attempt` (so the top-level
call uses `fuel = max_retries`, `attempt = 0`, and the source's exit test
`attempt >= max_retries` after the increment is exactly `fuel = 0` after
peeling one layer).  On a transient error with attempts remaining the loop
sleeps `retry_backoff ** attempt` for the incremented (1-based) `attempt`,
i.e. `backoff ^ (attempt + 1)` in 0-based indexing. -/
def liveLoop (res : Nat → SmtpResult) (backoff : ℚ) :
    Nat → Nat → (Bool × String) × List Ev
  | 0, _ => ((false, "max retries reached"), [])
  | fuel + 1, attempt =>
    match res attempt with
    | SmtpResult.success => ((true, "sent"), [Ev.net attempt])
    | SmtpResult.fatal e => ((false, "unexpected error: " ++ e), [Ev.net attempt])
    | SmtpResult.transient e =>
      if fuel = 0 then
        ((false, "smtp error after " ++ toString (attempt + 1) ++ " attempts: " ++ e),
         [Ev.net attempt])
      else
        let out := liveLoop res backoff fuel (attempt + 1)
        (out.1, Ev.net attempt :: Ev.slept (backoff ^ (attempt + 1)) :: out.2)

/-- `send_email` (src/main.py lines 246-312).  `ex` is the file-existence
predicate (`Path.exists`); building the `EmailMessage` is pure;
`attach_file_to_message` raises `FileNotFoundError("Attachment not found:
...")` when the path is missing, which the caller turns into
`(False, "Attachment error: ...")` before any network activity; dry-run
returns a preview success without touching the network. -/
def send_email (ex : String → Bool) (res : Nat → SmtpResult)
    (to_email subject body : String) (attachment_path : Option String)
    (dry_run : Bool) (max_retries : Nat) (retry_backoff : ℚ) :
    (Bool × String) × List Ev :=
  match attachment_path with
  | some p =>
    if ex p then
      if dry_run then ((true, "dry-run previewed"), [])
      else liveLoop res retry_backoff max_retries 0
    else ((false, "Attachment error: Attachment not found: " ++ p), [])
  | none =>
    if dry_run then ((true, "dry-run previewed"), [])
    else liveLoop res retry_backoff max_retries 0

lemma send_email_live (ex : String → Bool) (res : Nat → SmtpResult)
    (to_email subject body : String) (att : Option String)
    (maxr : Nat) (bo : ℚ) (hatt : att.all ex = true) :
    send_email ex res to_email subject body att false maxr bo =
      liveLoop res bo maxr 0 := by
  cases att with
  | none => rfl
  | some p =>
      simp only [Option.all_some] at hatt
      simp [send_email, hatt]

/-- The event trace produced by `k` consecutive transient failures starting
at 0-based attempt index `attempt`: each failed connection attempt followed
by its backoff sleep of `backoff ^ n` seconds, `n` the 1-based attempt
number. -/
def retryTrace (bo : ℚ) (attempt : Nat) : Nat → List Ev
  | 0 => []
  | k + 1 =>
      Ev.net attempt :: Ev.slept (bo ^ (attempt + 1)) :: retryTrace bo (attempt + 1) k

/-- The sleep durations of a trace, in order. -/
def sleepsOf (evs : List Ev) : List ℚ :=
  evs.filterMap (fun e => match e with | Ev.slept d => some d | Ev.net _ => none)

lemma sleepsOf_net_cons (a : Nat) (l : List Ev) :
    sleepsOf (Ev.net a :: l) = sleepsOf l := rfl

lemma sleepsOf_slept_cons (d : ℚ) (l : List Ev) :
    sleepsOf (Ev.slept d :: l) = d :: sleepsOf l := rfl

lemma sleepsOf_retryTrace (bo : ℚ) :
    ∀ (k attempt : Nat),
      sleepsOf (retryTrace bo attempt k) =
        (List.range k).map (fun j => bo ^ (attempt + j + 1)) := by
  intro k
  induction k with
  | zero => intro attempt; simp [retryTrace, sleepsOf]
  | succ k ih =>
      intro attempt
      rw [List.range_succ_eq_map]
      simp only [retryTrace, sleepsOf_net_cons, sleepsOf_slept_cons, ih (attempt + 1),
        List.map_cons, List.map_map, List.cons.injEq]
      constructor
      · norm_num
      · apply List.map_congr_left
        intro j _
        simp only [Function.comp_apply]
        congr 1
        omega

lemma liveLoop_success (res : Nat → SmtpResult) (bo : ℚ) :
    ∀ (k fuel attempt : Nat), k < fuel →
      (∀ j, j < k → ∃ e, res (attempt + j) = SmtpResult.transient e) →
      res (attempt + k) = SmtpResult.success →
      liveLoop res bo fuel attempt =
        ((true, "sent"), retryTrace bo attempt k ++ [Ev.net (attempt + k)]) := by
  intro k
  induction k with
  | zero =>
      intro fuel attempt hk _ hs
      match fuel, hk with
      | fuel + 1, _ =>
        rw [show attempt + 0 = attempt from rfl] at hs
        simp [liveLoop, hs, retryTrace]
  | succ k ih =>
      intro fuel attempt hk hf hs
      match fuel, hk with
      | fuel + 1, hk =>
        obtain ⟨e, he⟩ := hf 0 (Nat.succ_pos k)
        rw [show attempt + 0 = attempt from rfl] at he
        have hfuel : fuel ≠ 0 := by omega
        have ih' := ih fuel (attempt + 1) (by omega)
          (fun j hj => by
            obtain ⟨e', he'⟩ := hf (j + 1) (by omega)
            exact ⟨e', by rw [show attempt + 1 + j = attempt + (j + 1) by omega]; exact he'⟩)
          (by rw [show attempt + 1 + k = attempt + (k + 1) by omega]; exact hs)
        simp only [liveLoop, he, if_neg hfuel, ih', retryTrace]
        rw [show attempt + 1 + k = attempt + (k + 1) by omega]
        simp

lemma liveLoop_exhaust (res : Nat → SmtpResult) (bo : ℚ) (err : Nat → String) :
    ∀ (fuel attempt : Nat), 0 < fuel →
      (∀ j, j < fuel → res (attempt + j) = SmtpResult.transient (err (attempt + j))) →
      liveLoop res bo fuel attempt =
        ((false, "smtp error after " ++ toString (attempt + fuel) ++ " attempts: " ++
            err (attempt + fuel - 1)),
         retryTrace bo attempt (fuel - 1) ++ [Ev.net (attempt + (fuel - 1))]) := by
  intro fuel
  induction fuel with
  | zero => intro attempt h; omega
  | succ fuel ih =>
      intro attempt _ hf
      have he := hf 0 (Nat.succ_pos fuel)
      rw [show attempt + 0 = attempt from rfl] at he
      by_cases hfuel : fuel = 0
      · subst hfuel
        simp [liveLoop, he, retryTrace]
      · have ih' := ih (attempt + 1) (by omega)
          (fun j hj => by
            rw [show attempt + 1 + j = attempt + (j + 1) by omega]
            exact hf (j + 1) (by omega))
        rw [show attempt + 1 + fuel = attempt + (fuel + 1) by omega] at ih'
        rw [show attempt + 1 + (fuel - 1) = attempt + (fuel + 1 - 1) by omega] at ih'
        simp only [liveLoop, he, if_neg hfuel, ih']
        rw [show fuel + 1 - 1 = (fuel - 1) + 1 by omega]
        simp [retryTrace]

lemma liveLoop_net_count (res : Nat → SmtpResult) (bo : ℚ) :
    ∀ (fuel attempt : Nat),
      ((liveLoop res bo fuel attempt).2.countP Ev.isNet) ≤ fuel := by
  intro fuel
  induction fuel with
  | zero => intro attempt; simp [liveLoop]
  | succ fuel ih =>
      intro attempt
      cases hres : res attempt with
      | success => simp [liveLoop, hres, List.countP_cons, Ev.isNet]
      | fatal e => simp [liveLoop, hres, List.countP_cons, Ev.isNet]
      | transient e =>
          by_cases hfuel : fuel = 0
          · simp [liveLoop, hres, hfuel, List.countP_cons, Ev.isNet]
          · have := ih (attempt + 1)
            simp only [liveLoop, hres, if_neg hfuel]
            simp only [List.countP_cons, Ev.isNet]
            simp
            omega

/-!  ## Run logger (src/main.py lines 318-339)

The log file is modelled as `Option (List (List String))`:
`none` when `os.path.exists(log_path)` is false, `some rows` otherwise
(each row one CSV record).  Opening with mode `"a"` appends. -/

/-- The fixed header of `write_log_row`. -/
def logHeader : List String :=
  ["timestamp", "SNo", "Name", "Email", "Company", "Title", "status", "message"]

/-- The data row `write_log_row` writes; `now` is
`datetime.utcnow().isoformat()`. -/
def logRow (now : String) (row : Record) (status message : String) : List String :=
  [now, rgetD row "SNo" "", rgetD row "Name" "", rgetD row "Email" "",
   rgetD row "Company" "", rgetD row "Title" "", status, message]

/-- `write_log_row` (src/main.py lines 318-339): open in append mode,
emit the header first when the file did not exist, then exactly one row. -/
def write_log_row (now : String) (file : Option (List (List String)))
    (row : Record) (status message : String) : List (List String) :=
  match file with
  | none => [logHeader] ++ [logRow now row status message]
  | some content => content ++ [logRow now row status message]

/-!  ## CSV ingestion (src/main.py lines 94-147)

The repository's own transformation is modelled exactly: the `utf-8-sig`
decode (drop one leading BOM), `raw.replace("\t", ",")`,
`re.sub(r",\s+", ",", ...)`, and the final per-row trimming.  The standard
library's `csv.Sniffer`/`csv.DictReader` applied to the normalized text is
outside the repository and is abstracted as a parameter
`parse : String → List Record`; it is a pure function of the normalized
content (the sniffer sample `normalized[:8192]` is a function of it too). -/

/-- `raw.replace("\t", ",")` on one character. -/
def replaceTabChar (c : Char) : Char :=
  if c = '\t' then ',' else c

/-- `re.sub(r",\s+", ",", s)`: after each comma, drop the following run of
whitespace.  `skip` is true while scanning the whitespace run that follows
a comma. -/
def collapseAux : Bool → List Char → List Char
  | _, [] => []
  | skip, c :: rest =>
    if skip && pyIsSpace c then collapseAux true rest
    else if c = ',' then ',' :: collapseAux true rest
    else c :: collapseAux false rest

/-- The `utf-8-sig` codec: strip one leading byte-order mark. -/
def stripBOMchars : List Char → List Char
  | [] => []
  | c :: rest => if c = '\uFEFF' then rest else c :: rest

/-- The normalization `read_csv` performs before parsing. -/
def normalizeCSV (raw : String) : String :=
  String.mk (collapseAux false ((stripBOMchars raw.data).map replaceTabChar))

/-- Key normalization applied to each parsed row:
`k.strip().replace("\uFEFF", "")`. -/
def normKey (k : String) : String :=
  String.mk ((pyStrip k).data.filter (fun c => c != '\uFEFF'))

/-- `read_csv` (src/main.py lines 94-147): normalize, parse with the
(abstracted) `DictReader`, trim keys and values of every row. -/
def read_csv (parse : String → List Record) (raw : String) : List Record :=
  (parse (normalizeCSV raw)).map
    (fun r => r.map (fun kv => (normKey kv.1, pyStrip kv.2)))

/-- Rewrite a clean file into the "single space after each comma" style. -/
def insertSpaceAux : List Char → List Char
  | [] => []
  | c :: rest =>
      if c = ',' then c :: ' ' :: insertSpaceAux rest else c :: insertSpaceAux rest

/-- String version of `insertSpaceAux`. -/
def insertSpaceAfterCommas (s : String) : String :=
  String.mk (insertSpaceAux s.data)

/-!  ## Orchestrator (src/main.py lines 341-441)

Only the per-contact loop is modelled (credential resolution and
file loading happen before it).  Side effects of a run are a trace of
`RunEv` events; a `FmtError` escaping `render_template` aborts the run
(uncaught exception), modelled by `Except.error`. -/

/-- Observable per-run events: a log row written (status and message), the
rate-limit sleep between contacts, and — inside dispatch — connection
attempts and retry-backoff sleeps. -/
inductive RunEv where
  | logged (status message : String)
  | ratelimit (d : ℚ)
  | net (attempt : Nat)
  | backoff (d : ℚ)
deriving DecidableEq, Repr

/-- Embed dispatch events into run events. -/
def evToRun : Ev → RunEv
  | Ev.net n => RunEv.net n
  | Ev.slept d => RunEv.backoff d

/-- `true` exactly on rate-limit sleep events. -/
def RunEv.isRate : RunEv → Bool
  | RunEv.ratelimit _ => true
  | _ => false

/-- Configuration and environment of one run, as `main` sees it after
argument parsing: the loaded template text, the resume path
(`args.resume`), the `--send` flag, `--max-retries`,
`--emails-per-minute`, the file-existence predicate `os.path.exists`,
and the per-row SMTP oracle. -/
structure RunCfg where
  template : String
  resumePath : String
  send : Bool
  maxRetries : Nat
  emailsPerMinute : ℚ
  exfs : String → Bool
  oracle : Nat → Nat → SmtpResult

/-- `interval = 60.0 / max(args.emails_per_minute, 0.1)`
(src/main.py lines 382-383). -/
def cfgInterval (cfg : RunCfg) : ℚ :=
  60 / max cfg.emailsPerMinute (1 / 10)

/-- The body of the `for raw_row in rows:` loop (src/main.py lines
387-427) for one contact, minus the trailing rate-limit sleep.  Returns
`(reached_end, events)`: `reached_end` is false exactly when the row was
skipped by `continue`.  A valid row always has a nonblank `Email`, so
`row["Email"]` is `rgetD row "Email" ""`.  Note the source passes
`attachment_path=args.resume if os.path.exists(args.resume) else None`
(line 410): a missing resume file is silently dropped, not dispatched. -/
def processRow (cfg : RunCfg) (idx : Nat) (row : Record) :
    Except FmtError (Bool × List RunEv) :=
  let v := validate_row row requiredFields
  if v.1 then
    match render_template cfg.template row with
    | Except.error e => Except.error e
    | Except.ok sb =>
        let out := send_email cfg.exfs (cfg.oracle idx) (rgetD row "Email" "")
          sb.1 sb.2 (if cfg.exfs cfg.resumePath then some cfg.resumePath else none)
          (!cfg.send) cfg.maxRetries 2
        let status := if out.1.1 then (if cfg.send then "sent" else "previewed")
          else "failed"
        Except.ok (true, out.2.map evToRun ++ [RunEv.logged status out.1.2])
  else
    Except.ok (false, [RunEv.logged "skipped" (String.intercalate "; " v.2)])

/-- The contact loop: `idx` is the 0-based position, `n` the total row
count; after a row that reaches the end of the loop body, sleep for the
rate-limit interval when `total < len(rows)`, i.e. `idx + 1 < n`
(src/main.py lines 429-432; the `continue` of a skipped row bypasses
this sleep). -/
def loopAux (cfg : RunCfg) (n : Nat) : Nat → List Record → Except FmtError (List RunEv)
  | _, [] => Except.ok []
  | idx, row :: rest =>
    match processRow cfg idx row with
    | Except.error e => Except.error e
    | Except.ok re =>
      match loopAux cfg n (idx + 1) rest with
      | Except.error e => Except.error e
      | Except.ok tail =>
          Except.ok (re.2 ++
            (if re.1 then (if idx + 1 < n then [RunEv.ratelimit (cfgInterval cfg)] else [])
             else []) ++ tail)

/-- The whole per-contact phase of `main`. -/
def runContacts (cfg : RunCfg) (rows : List Record) : Except FmtError (List RunEv) :=
  loopAux cfg rows.length 0 rows

lemma pyIsSpace_comma : pyIsSpace ',' = false := by decide

lemma collapseAux_insert :
    ∀ (l : List Char) (skip : Bool),
      collapseAux skip (insertSpaceAux l) = collapseAux skip l := by
  intro l
  induction l with
  | nil => intro skip; rfl
  | cons c rest ih =>
      intro skip
      by_cases hc : c = ','
      · subst hc
        simp only [insertSpaceAux, if_pos rfl]
        cases skip with
        | false =>
            simp only [collapseAux, Bool.false_and, Bool.false_eq_true, if_false,
              if_pos rfl]
            simp only [pyIsSpace, Bool.true_and]
            simp [ih]
        | true =>
            simp only [collapseAux, pyIsSpace_comma, Bool.and_false, Bool.false_eq_true,
              if_false, if_pos rfl]
            simp only [Bool.true_and]
            simp [pyIsSpace, ih]
      · simp only [insertSpaceAux, if_neg hc]
        cases skip with
        | false =>
            simp only [collapseAux, Bool.false_and, Bool.false_eq_true, if_false,
              if_neg hc, ih]
        | true =>
            by_cases hs : pyIsSpace c = true
            · simp only [collapseAux, hs, Bool.and_self, if_pos rfl, ih]
            · simp only [collapseAux, Bool.true_and, hs, Bool.false_eq_true, if_false,
                if_neg hc, ih]

lemma stripBOM_insert (l : List Char) :
    stripBOMchars (insertSpaceAux l) = insertSpaceAux (stripBOMchars l) := by
  cases l with
  | nil => rfl
  | cons c rest =>
      by_cases hc : c = ','
      · subst hc
        simp [insertSpaceAux, stripBOMchars]
      · by_cases hb : c = '\uFEFF'
        · subst hb
          simp [insertSpaceAux, stripBOMchars]
        · simp [insertSpaceAux, stripBOMchars, hc, hb]

lemma mem_stripBOM {x : Char} {l : List Char} (h : x ∈ stripBOMchars l) : x ∈ l := by
  cases l with
  | nil => exact h
  | cons c rest =>
      simp only [stripBOMchars] at h
      by_cases hb : c = '\uFEFF'
      · rw [if_pos hb] at h; exact List.mem_cons_of_mem c h
      · rw [if_neg hb] at h; exact h

lemma mem_insertSpaceAux {x : Char} :
    ∀ {l : List Char}, x ∈ insertSpaceAux l → x ∈ l ∨ x = ' ' := by
  intro l
  induction l with
  | nil => intro h; exact absurd h (List.not_mem_nil x)
  | cons c rest ih =>
      intro h
      by_cases hc : c = ','
      · simp only [insertSpaceAux, if_pos hc] at h
        rcases List.mem_cons.mp h with h1 | h2
        · exact Or.inl (h1 ▸ List.mem_cons_self c rest)
        · rcases List.mem_cons.mp h2 with h3 | h4
          · exact Or.inr h3
          · rcases ih h4 with h' | h'
            · exact Or.inl (List.mem_cons_of_mem _ h')
            · exact Or.inr h'
      · simp only [insertSpaceAux, if_neg hc] at h
        rcases List.mem_cons.mp h with h1 | h2
        · exact Or.inl (h1 ▸ List.mem_cons_self c rest)
        · rcases ih h2 with h' | h'
          · exact Or.inl (List.mem_cons_of_mem _ h')
          · exact Or.inr h'

lemma map_replaceTab_of_no_tab {l : List Char} (h : ∀ c ∈ l, c ≠ '\t') :
    l.map replaceTabChar = l := by
  induction l with
  | nil => rfl
  | cons c rest ih =>
      simp only [List.map_cons]
      rw [show replaceTabChar c = c from by
        simp [replaceTabChar, h c (List.mem_cons_self c rest)]]
      rw [ih (fun x hx => h x (List.mem_cons_of_mem c hx))]

lemma normalizeCSV_insert (c : String) (h : ∀ ch ∈ c.data, ch ≠ '\t') :
    normalizeCSV (insertSpaceAfterCommas c) = normalizeCSV c := by
  unfold normalizeCSV insertSpaceAfterCommas
  have hdata : (String.mk (insertSpaceAux c.data)).data = insertSpaceAux c.data := rfl
  rw [hdata, stripBOM_insert]
  have hnt1 : ∀ ch ∈ insertSpaceAux (stripBOMchars c.data), ch ≠ '\t' := by
    intro ch hch
    rcases mem_insertSpaceAux hch with h' | h'
    · exact h ch (mem_stripBOM h')
    · subst h'; decide
  have hnt2 : ∀ ch ∈ stripBOMchars c.data, ch ≠ '\t' :=
    fun ch hch => h ch (mem_stripBOM hch)
  rw [map_replaceTab_of_no_tab hnt1, map_replaceTab_of_no_tab hnt2,
    collapseAux_insert]

lemma send_email_dry_events (ex : String → Bool) (res : Nat → SmtpResult)
    (to_email subject body : String) (att : Option String) (maxr : Nat) (bo : ℚ) :
    (send_email ex res to_email subject body att true maxr bo).2 = [] := by
  cases att with
  | none => rfl
  | some p =>
      by_cases hp : ex p = true
      · simp [send_email, hp]
      · simp [send_email, hp]

lemma isRate_evToRun (e : Ev) : RunEv.isRate (evToRun e) = false := by
  cases e <;> rfl

lemma processRow_reached (cfg : RunCfg) (idx : Nat) (row : Record)
    (re : Bool × List RunEv) (h : processRow cfg idx row = Except.ok re) :
    re.1 = (validate_row row requiredFields).1 ∧
    ∀ e ∈ re.2, RunEv.isRate e = false := by
  unfold processRow at h
  by_cases hv : (validate_row row requiredFields).1 = true
  · rw [if_pos hv] at h
    cases hr : render_template cfg.template row with
    | error e => rw [hr] at h; exact absurd h (by simp)
    | ok sb =>
        rw [hr] at h
        simp only [Except.ok.injEq] at h
        subst h
        refine ⟨hv.symm, ?_⟩
        intro e he
        rcases List.mem_append.mp he with he | he
        · obtain ⟨e', _, rfl⟩ := List.mem_map.mp he
          exact isRate_evToRun e'
        · rcases List.mem_singleton.mp he with rfl
          rfl
  · rw [if_neg hv] at h
    simp only [Except.ok.injEq] at h
    subst h
    refine ⟨by simp [Bool.eq_false_iff.mpr hv], ?_⟩
    intro e he
    rcases List.mem_singleton.mp he with rfl
    rfl

lemma countP_eq_zero_of_forall {p : RunEv → Bool} {l : List RunEv}
    (h : ∀ e ∈ l, p e = false) : l.countP p = 0 := by
  rw [List.countP_eq_zero]
  intro a ha
  simp [h a ha]

lemma loopAux_rate_count (cfg : RunCfg) :
    ∀ (rows : List Record) (idx : Nat) (evs : List RunEv),
      loopAux cfg (idx + rows.length) idx rows = Except.ok evs →
      evs.countP RunEv.isRate =
        rows.dropLast.countP (fun r => (validate_row r requiredFields).1) ∧
      ∀ e ∈ evs, RunEv.isRate e = true → e = RunEv.ratelimit (cfgInterval cfg) := by
  intro rows
  induction rows with
  | nil =>
      intro idx evs h
      simp only [loopAux, Except.ok.injEq] at h
      subst h
      simp
  | cons r rest ih =>
      intro idx evs h
      simp only [loopAux] at h
      cases hp : processRow cfg idx r with
      | error e => rw [hp] at h; exact absurd h (by simp)
      | ok re =>
          rw [hp] at h
          cases hl : loopAux cfg (idx + (r :: rest).length) (idx + 1) rest with
          | error e => rw [hl] at h; exact absurd h (by simp)
          | ok tail =>
              rw [hl] at h
              simp only [Except.ok.injEq] at h
              subst h
              have hn : idx + (r :: rest).length = (idx + 1) + rest.length := by
                simp [List.length_cons]; omega
              rw [hn] at hl
              obtain ⟨ihc, ihm⟩ := ih (idx + 1) tail hl
              obtain ⟨hre, hmem⟩ := processRow_reached cfg idx r re hp
              have hre2 : re.2.countP RunEv.isRate = 0 := countP_eq_zero_of_forall hmem
              constructor
              · rw [List.countP_append, List.countP_append, hre2, ihc]
                cases rest with
                | nil =>
                    have : ¬ (idx + 1 < idx + (r :: ([] : List Record)).length) := by
                      simp [List.length_cons]
                    simp [this, List.dropLast]
                | cons r2 rest2 =>
                    have hlt : idx + 1 < idx + (r :: r2 :: rest2).length := by
                      simp [List.length_cons]
                    rw [List.dropLast_cons₂, List.countP_cons]
                    cases hv : re.1 with
                    | true =>
                        rw [if_pos rfl, if_pos hlt]
                        rw [hv] at hre
                        simp [← hre, List.countP_cons, RunEv.isRate]
                        omega
                    | false =>
                        rw [if_neg (by simp)]
                        rw [hv] at hre
                        simp [← hre]
              · intro e he hrate
                rcases List.mem_append.mp he with he' | he'
                · rcases List.mem_append.mp he' with he'' | he''
                  · exact absurd hrate (by simp [hmem e he''])
                  · cases hv : re.1 with
                    | true =>
                        rw [hv] at he''
                        by_cases hlt : idx + 1 < idx + (r :: rest).length
                        · rw [if_pos rfl, if_pos hlt] at he''
                          rcases List.mem_singleton.mp he'' with rfl
                          rfl
                        · rw [if_pos rfl, if_neg hlt] at he''
                          exact absurd he'' (List.not_mem_nil e)
                    | false =>
                        rw [hv] at he''
                        rw [if_neg (by simp)] at he''
                        exact absurd he'' (List.not_mem_nil e)
                · exact ihm e he' hrate

/-!  ## A first-order characterisation of EMAIL_REGEX -/

/-- The corrected acceptance condition: exactly one `@`, a nonempty local
part, and a `.` in the domain part that is neither the domain's first nor
its last character. -/
def amendedEmailOk (s : String) : Bool :=
  (s.data.count '@' == 1) &&
  (!(s.data.takeWhile (fun c => c != '@')).isEmpty) &&
  (((s.data.dropWhile (fun c => c != '@')).tail.drop 1).dropLast.contains '.')

lemma takeWhile_take_drop (p : Char → Bool) :
    ∀ (l : List Char) (i : Nat), i < l.length →
      (∀ c ∈ l.take i, p c = true) → p (l.getD i 'x') = false →
      l.takeWhile p = l.take i ∧ l.dropWhile p = l.drop i := by
  intro l
  induction l with
  | nil => intro i hi; exact absurd hi (by simp)
  | cons c rest ih =>
      intro i hi hall hget
      cases i with
      | zero =>
          have hc : p c = false := hget
          simp [List.takeWhile_cons, List.dropWhile_cons, hc]
      | succ k =>
          have hc : p c = true := hall c (by simp)
          have hk : k < rest.length := by simpa using hi
          have hall' : ∀ x ∈ rest.take k, p x = true := fun x hx =>
            hall x (by simp [List.take_succ_cons, hx])
          have hget' : p (rest.getD k 'x') = false := hget
          obtain ⟨h1, h2⟩ := ih k hk hall' hget'
          simp [List.takeWhile_cons, List.dropWhile_cons, hc, h1, h2,
            List.take_succ_cons, List.drop_succ_cons]

lemma getD_eq_getElem (l : List Char) (i : Nat) (h : i < l.length) :
    l.getD i 'x' = l[i] := by
  simp [List.getD_eq_getElem?_getD, List.getElem?_eq_getElem h]

lemma interior_dot_iff (dom : List Char) :
    ((dom.drop 1).dropLast.contains '.') = true ↔
      ∃ j, 0 < j ∧ j + 1 < dom.length ∧ dom.getD j 'x' = '.' := by
  rw [List.elem_iff, List.mem_iff_getElem]
  constructor
  · rintro ⟨k, hk, hget⟩
    have hk1 : k < (dom.drop 1).length - 1 := by
      simpa [List.length_dropLast] using hk
    have hk3 : k + 1 + 1 < dom.length := by
      simp only [List.length_drop] at hk1; omega
    refine ⟨k + 1, by omega, hk3, ?_⟩
    rw [getD_eq_getElem dom (k + 1) (by omega)]
    simp only [List.getElem_dropLast, List.getElem_drop] at hget
    convert hget using 2
    omega
  · rintro ⟨j, hj0, hj1, hget⟩
    rw [getD_eq_getElem dom j (by omega)] at hget
    have hj2 : j - 1 < (dom.drop 1).dropLast.length := by
      simp only [List.length_dropLast, List.length_drop]; omega
    refine ⟨j - 1, hj2, ?_⟩
    simp only [List.getElem_dropLast, List.getElem_drop]
    convert hget using 2
    omega

lemma emailRegexMatch_iff (s : String) :
    emailRegexMatch s = true ↔
      ∃ i, i < s.data.length ∧ 0 < i ∧
        (∀ c ∈ s.data.take i, ¬ c = '@') ∧ s.data.getD i 'x' = '@' ∧
        (∀ c ∈ s.data.drop (i + 1), ¬ c = '@') ∧
        ∃ j, 0 < j ∧ j + 1 < (s.data.drop (i + 1)).length ∧
          (s.data.drop (i + 1)).getD j 'x' = '.' := by
  unfold emailRegexMatch
  simp only [List.any_eq_true, List.mem_range, Bool.and_eq_true, decide_eq_true_eq,
    List.all_eq_true, beq_iff_eq, bne_iff_ne, ne_eq]
  constructor
  · rintro ⟨i, hi, ⟨⟨⟨hpos, hall1⟩, hat⟩, hall2⟩, j, hj, ⟨hj0, hjlt⟩, hdot⟩
    exact ⟨i, hi, hpos, hall1, hat, hall2, j, hj0, hjlt, hdot⟩
  · rintro ⟨i, hi, hpos, hall1, hat, hall2, j, hj0, hjlt, hdot⟩
    exact ⟨i, hi, ⟨⟨⟨hpos, hall1⟩, hat⟩, hall2⟩, j, by omega, ⟨hj0, hjlt⟩, hdot⟩

lemma amendedEmailOk_iff (s : String) :
    amendedEmailOk s = true ↔
      s.data.count '@' = 1 ∧
      s.data.takeWhile (fun c => c != '@') ≠ [] ∧
      ((((s.data.dropWhile (fun c => c != '@')).tail.drop 1).dropLast.contains '.')
        = true) := by
  unfold amendedEmailOk
  simp only [Bool.and_eq_true, beq_iff_eq, Bool.not_eq_true', List.isEmpty_iff, ne_eq]
  constructor
  · rintro ⟨⟨h1, h2⟩, h3⟩
    exact ⟨h1, by simpa [List.isEmpty_iff] using h2, h3⟩
  · rintro ⟨h1, h2, h3⟩
    exact ⟨⟨h1, by simpa [List.isEmpty_iff] using h2⟩, h3⟩

lemma dropWhile_head_false (p : Char → Bool) :
    ∀ (l : List Char) (c : Char) (r : List Char),
      l.dropWhile p = c :: r → p c = false := by
  intro l
  induction l with
  | nil => intro c r h; exact absurd h (by simp)
  | cons a t ih =>
      intro c r h
      by_cases hp : p a = true
      · rw [List.dropWhile_cons, if_pos hp] at h
        exact ih c r h
      · rw [List.dropWhile_cons, if_neg hp] at h
        injection h with h1 _
        subst h1
        cases hpb : p a with
        | true => exact absurd hpb hp
        | false => rfl

lemma getD_of_drop (l : List Char) (i : Nat) (c : Char) (r : List Char)
    (h : l.drop i = c :: r) : l.getD i 'x' = c := by
  have hi : i < l.length := by
    by_contra hcon
    rw [List.drop_eq_nil_of_le (by omega)] at h
    exact absurd h (by simp)
  rw [getD_eq_getElem l i hi]
  have h0 : (l.drop i).getD 0 'x' = c := by rw [h]; rfl
  rw [getD_eq_getElem (l.drop i) 0 (by rw [h]; simp)] at h0
  rw [List.getElem_drop] at h0
  simpa using h0

/-- The transcription of `EMAIL_REGEX` and its first-order characterisation
agree on every string. -/
lemma emailRegexMatch_eq_amended (s : String) :
    emailRegexMatch s = amendedEmailOk s := by
  apply Bool.coe_iff_coe.mp
  rw [emailRegexMatch_iff, amendedEmailOk_iff]
  constructor
  · rintro ⟨i, hi, hpos, hall1, hat, hall2, j, hj0, hjlt, hdot⟩
    have hpt : ∀ c ∈ s.data.take i, (fun c => c != '@') c = true := by
      intro c hc; simpa using hall1 c hc
    have hpf : (fun c => c != '@') (s.data.getD i 'x') = false := by
      show (s.data.getD i 'x' != '@') = false
      rw [hat]
      decide
    obtain ⟨ht, hd⟩ := takeWhile_take_drop (fun c => c != '@') s.data i hi hpt hpf
    have hdropc : s.data.drop i = s.data[i] :: s.data.drop (i + 1) :=
      List.drop_eq_getElem_cons hi
    have hati : s.data[i] = '@' := by rw [← getD_eq_getElem s.data i hi]; exact hat
    refine ⟨?_, ?_, ?_⟩
    · have hsplit := List.take_append_drop i s.data
      calc s.data.count '@'
          = (s.data.take i ++ s.data.drop i).count '@' := by rw [hsplit]
        _ = (s.data.take i).count '@' + (s.data.drop i).count '@' :=
            List.count_append '@' _ _
        _ = 1 := by
            rw [List.count_eq_zero.mpr (fun hmem => by
              exact absurd rfl (hall1 '@' hmem))]
            rw [hdropc, hati, List.count_cons_self]
            rw [List.count_eq_zero.mpr (fun hmem => by
              exact absurd rfl (hall2 '@' hmem))]
    · rw [ht]
      have : (s.data.take i).length = i := by
        rw [List.length_take]; omega
      intro hnil
      rw [hnil] at this
      simp at this
      omega
    · rw [hd, hdropc]
      simp only [List.tail_cons]
      exact (interior_dot_iff (s.data.drop (i + 1))).mpr ⟨j, hj0, hjlt, hdot⟩
  · rintro ⟨hcount, htne, hdot⟩
    have hmemt : ∀ c ∈ s.data.takeWhile (fun c => c != '@'), ¬ c = '@' := by
      intro c hc
      simpa using List.mem_takeWhile_imp hc
    have hdne : s.data.dropWhile (fun c => c != '@') ≠ [] := by
      intro hnil
      have hall : s.data.count '@' = 0 := by
        rw [List.count_eq_zero]
        intro hmem
        rw [← List.takeWhile_append_dropWhile (fun c => c != '@') s.data, hnil,
          List.append_nil] at hmem
        exact hmemt '@' hmem rfl
      omega
    cases hdw : s.data.dropWhile (fun c => c != '@') with
    | nil => exact absurd hdw hdne
    | cons c0 d' =>
        have hc0 : c0 = '@' := by
          have hh := dropWhile_head_false (fun c => c != '@') s.data c0 d' hdw
          simpa using hh
        have hsplit : s.data = s.data.takeWhile (fun c => c != '@') ++ (c0 :: d') := by
          conv_lhs => rw [← List.takeWhile_append_dropWhile (fun c => c != '@') s.data]
          rw [hdw]
        have hlen : (s.data.takeWhile (fun c => c != '@')).length < s.data.length := by
          conv_rhs => rw [hsplit]
          simp [List.length_append]
        have hpos : 0 < (s.data.takeWhile (fun c => c != '@')).length :=
          List.length_pos.mpr htne
        have htake : s.data.take (s.data.takeWhile (fun c => c != '@')).length =
            s.data.takeWhile (fun c => c != '@') := by
          nth_rewrite 2 [hsplit]
          exact List.take_left _ _
        have hdropi : s.data.drop (s.data.takeWhile (fun c => c != '@')).length =
            c0 :: d' := by
          nth_rewrite 2 [hsplit]
          exact List.drop_left _ _
        have hdropi1 :
            s.data.drop ((s.data.takeWhile (fun c => c != '@')).length + 1) = d' := by
          rw [← List.drop_drop, hdropi]
          simp
        have hcd : d'.count '@' = 0 := by
          have hc : s.data.count '@' =
              (s.data.takeWhile (fun c => c != '@')).count '@' +
              (c0 :: d').count '@' := by
            conv_lhs => rw [hsplit]
            exact List.count_append '@' _ _
          rw [List.count_eq_zero.mpr (fun hmem => hmemt '@' hmem rfl)] at hc
          rw [hc0, List.count_cons_self] at hc
          omega
        have hall2 :
            ∀ c ∈ s.data.drop ((s.data.takeWhile (fun c => c != '@')).length + 1),
              ¬ c = '@' := by
          intro c hc hceq
          subst hceq
          rw [hdropi1] at hc
          exact absurd hc (List.count_eq_zero.mp hcd)
        rw [hdw] at hdot
        simp only [List.tail_cons] at hdot
        obtain ⟨j, hj0, hjlt, hjdot⟩ := (interior_dot_iff d').mp hdot
        refine ⟨(s.data.takeWhile (fun c => c != '@')).length, hlen, hpos, ?_, ?_,
          hall2, j, hj0, ?_, ?_⟩
        · intro c hc
          rw [htake] at hc
          exact hmemt c hc
        · exact (getD_of_drop s.data _ c0 d' hdropi).trans hc0
        · rw [hdropi1]
          exact hjlt
        · rw [hdropi1]
          exact hjdot

/-!  ## Concrete fixtures used by witnesses and counterexamples -/

/-- The acceptance condition asserted by the specification sentence:
non-blank, exactly one `@`, at least one `.` somewhere after the `@`. -/
def claimEmailOk (s : String) : Bool :=
  (!s.data.isEmpty) && (s.data.count '@' == 1) &&
  ((s.data.dropWhile (fun c => c != '@')).tail.contains '.')

/-- A fully valid contact row. -/
def goodRow : Record :=
  [("SNo", "1"), ("Name", "Ann"), ("Email", "ann@example.com"),
   ("Title", "HR"), ("Company", "Acme")]

/-- A row with no `Email` column at all. -/
def badRow : Record :=
  [("SNo", "2"), ("Name", "Bob"), ("Title", "HR"), ("Company", "Acme")]

/-- A row with a blank `Name` and a non-blank malformed email. -/
def c6Row : Record :=
  [("SNo", "1"), ("Name", "   "), ("Email", "not-an-email"),
   ("Title", "HR"), ("Company", "Acme")]

/-- An SMTP oracle that fails transiently on the first two attempts and
succeeds on the third. -/
def twoFailRes : Nat → SmtpResult :=
  fun n => if n < 2 then SmtpResult.transient "connection reset" else SmtpResult.success

/-- A dry-run configuration whose resume file does not exist
(default rate 20 emails/minute, so a 3-second interval). -/
def dryCfg : RunCfg :=
  { template := "Subject: Hi\n\nHello"
    resumePath := "resume.pdf"
    send := false
    maxRetries := 3
    emailsPerMinute := 20
    exfs := fun _ => false
    oracle := fun _ _ => SmtpResult.success }

/-- The run trace of `dryCfg` on `[goodRow, badRow]`. -/
def dryTrace : List RunEv :=
  [RunEv.logged "previewed" "dry-run previewed",
   RunEv.ratelimit (cfgInterval dryCfg),
   RunEv.logged "skipped" ("Missing required field " ++ quoted "Email" ++
     "; Email is empty")]

/-- Count of log rows with a given status in a run trace. -/
def countStatus (s : String) (evs : List RunEv) : Nat :=
  evs.countP (fun e => match e with
    | RunEv.logged st _ => st == s
    | _ => false)

lemma validate_row_fst (row : Record) (req : List String) :
    (validate_row row req).1 = (validate_row row req).2.isEmpty := rfl

lemma fieldMissing_email_blank (row : Record)
    (h : fieldMissing row "Email" = true) :
    pyStrip (rgetD row "Email" "") = "" := by
  unfold fieldMissing at h
  unfold rgetD
  cases hr : rget row "Email" with
  | none => rfl
  | some v =>
      rw [hr] at h
      simpa using h

/-!  ## Claim theorems -/

/-- Claim C1 (code_bug).  The claim says `render_template` never raises on a
missing placeholder key, in the subject template as well as in the body.
The code contradicts this (and its own comment "so missing keys produce
empty string"): the subject line is rendered with a bare `str.format`, so a
placeholder in the `Subject:` line that is absent from the record — here
`{Foo}` against an empty record — raises `KeyError('Foo')`; the body path,
by contrast, catches the `KeyError` and substitutes the empty string. -/
theorem render_template_subject_missing_key_raises :
    render_template "Subject: Hi {Foo}\n\nbody" [] =
      Except.error (FmtError.keyError "Foo") ∧
    render_template "Hi {Foo}\n\nbody" [] =
      Except.ok ("Hello  — Opportunity to connect", "Hi \n\nbody") :=
  ⟨rfl, rfl⟩

/-- Claim C2 (confirmed).  In live mode `send_email` follows the retry
policy: if the first `k` attempts fail transiently and attempt `k`
(0-based) succeeds with `k < max_retries`, the result is `(true, "sent")`
and the trace is `k` failed connections each followed by a backoff sleep of
`retry_backoff ^ n` seconds (`n` the 1-based attempt number), then the
successful connection; if every attempt fails transiently, after
`max_retries` attempts the result carries the last error and the attempt
count; and in every case at most `max_retries` connections are opened. -/
theorem send_email_retry_policy (ex : String → Bool) (res : Nat → SmtpResult)
    (to_email subject body : String) (att : Option String) (bo : ℚ) (maxr : Nat)
    (hatt : att.all ex = true) :
    (∀ k, k < maxr →
      (∀ j, j < k → ∃ e, res j = SmtpResult.transient e) →
      res k = SmtpResult.success →
      send_email ex res to_email subject body att false maxr bo =
        ((true, "sent"), retryTrace bo 0 k ++ [Ev.net k]) ∧
      sleepsOf (retryTrace bo 0 k) = (List.range k).map (fun j => bo ^ (j + 1))) ∧
    (∀ err : Nat → String, 0 < maxr →
      (∀ j, j < maxr → res j = SmtpResult.transient (err j)) →
      send_email ex res to_email subject body att false maxr bo =
        ((false, "smtp error after " ++ toString maxr ++ " attempts: " ++
            err (maxr - 1)),
         retryTrace bo 0 (maxr - 1) ++ [Ev.net (maxr - 1)])) ∧
    (send_email ex res to_email subject body att false maxr bo).2.countP Ev.isNet
      ≤ maxr := by
  refine ⟨?_, ?_, ?_⟩
  · intro k hk hf hs
    constructor
    · rw [send_email_live ex res to_email subject body att maxr bo hatt]
      have h := liveLoop_success res bo k maxr 0 hk
        (fun j hj => by simpa using hf j hj) (by simpa using hs)
      simpa using h
    · have h := sleepsOf_retryTrace bo k 0
      simpa using h
  · intro err hm hf
    rw [send_email_live ex res to_email subject body att maxr bo hatt]
    have h := liveLoop_exhaust res bo err maxr 0 hm
      (fun j hj => by simpa using hf j hj)
    simpa using h
  · rw [send_email_live ex res to_email subject body att maxr bo hatt]
    exact liveLoop_net_count res bo maxr 0

/-- Witness for C2: an oracle that fails transiently exactly twice and then
succeeds, with `max_retries = 3` and the default backoff factor 2, yields
success, and exactly two backoff sleeps occur — 2 seconds then 4 seconds,
strictly increasing. -/
theorem send_email_retry_policy_witness :
    send_email (fun _ => true) twoFailRes "a@b.c" "subject" "body" none false 3 2 =
      ((true, "sent"),
       [Ev.net 0, Ev.slept 2, Ev.net 1, Ev.slept 4, Ev.net 2]) ∧
    sleepsOf [Ev.net 0, Ev.slept 2, Ev.net 1, Ev.slept 4, Ev.net 2] = [2, 4] ∧
    ((2 : ℚ) < 4) := by
  have h := (send_email_retry_policy (fun _ => true) twoFailRes "a@b.c" "subject"
    "body" none 2 3 rfl).1 2 (by omega)
    (fun j hj => ⟨"connection reset", by simp [twoFailRes, hj]⟩) (by rfl)
  refine ⟨?_, by rfl, by norm_num⟩
  rw [h.1]
  norm_num [retryTrace]

/-- Claim C3 (corrected) — counterexample.  With the default 20
emails/minute (3-second interval) and a dry run over a skipped first
contact and a valid second one, the run trace contains no rate-limit sleep
at all: the `continue` taken for the skipped row bypasses the sleep, while
the claim requires a sleep after every non-final contact "whether that
contact was skipped, previewed, sent, or failed". -/
theorem skipped_contact_sleep_counterexample :
    runContacts dryCfg [badRow, goodRow] =
      Except.ok
        [RunEv.logged "skipped"
           ("Missing required field " ++ quoted "Email" ++ "; Email is empty"),
         RunEv.logged "previewed" "dry-run previewed"] ∧
    ([RunEv.logged "skipped"
        ("Missing required field " ++ quoted "Email" ++ "; Email is empty"),
      RunEv.logged "previewed" "dry-run previewed"].countP RunEv.isRate = 0) ∧
    cfgInterval dryCfg = 3 :=
  ⟨rfl, rfl, by norm_num [cfgInterval, dryCfg]⟩

/-- Claim C3 (corrected) — amended.  After each contact that reaches the
end of the loop body (previewed, sent, or failed) and is not the last row,
the orchestrator sleeps for the configured interval
`60 / max(emails_per_minute, 0.1)` seconds; a skipped contact is followed
by no rate-limit sleep, and neither is the last row: the number of
rate-limit sleeps equals the number of valid rows among all but the last,
and every rate-limit sleep has the configured duration. -/
theorem rate_limit_sleep_amended (cfg : RunCfg) (rows : List Record)
    (evs : List RunEv) (h : runContacts cfg rows = Except.ok evs) :
    evs.countP RunEv.isRate =
      rows.dropLast.countP (fun r => (validate_row r requiredFields).1) ∧
    ∀ e ∈ evs, RunEv.isRate e = true → e = RunEv.ratelimit (cfgInterval cfg) := by
  have h' : loopAux cfg (0 + rows.length) 0 rows = Except.ok evs := by
    simpa [runContacts] using h
  exact loopAux_rate_count cfg rows 0 evs h'

/-- Witness for the amended C3: a valid first row followed by a skipped
last row produces exactly one rate-limit sleep, of the configured
3-second interval. -/
theorem rate_limit_sleep_amended_witness :
    runContacts dryCfg [goodRow, badRow] = Except.ok dryTrace ∧
    (dryTrace.countP RunEv.isRate =
      [goodRow, badRow].dropLast.countP
        (fun r => (validate_row r requiredFields).1) ∧
     ∀ e ∈ dryTrace, RunEv.isRate e = true →
       e = RunEv.ratelimit (cfgInterval dryCfg)) :=
  ⟨rfl, rate_limit_sleep_amended dryCfg [goodRow, badRow] dryTrace rfl⟩

/-- Claim C4 (corrected) — counterexample.  In a run whose configured
attachment file does not exist (`dryCfg.exfs` is false everywhere), a valid
row is NOT logged as failed with an attachment error: `main` passes
`attachment_path=None` when `os.path.exists(args.resume)` is false, so the
row is previewed (or sent) without any attachment. -/
theorem missing_attachment_counterexample :
    dryCfg.exfs dryCfg.resumePath = false ∧
    runContacts dryCfg [goodRow] =
      Except.ok [RunEv.logged "previewed" "dry-run previewed"] ∧
    countStatus "failed" [RunEv.logged "previewed" "dry-run previewed"] = 0 :=
  ⟨rfl, rfl, rfl⟩

/-- Claim C4 (corrected) — amended.  When the configured attachment file
does not exist the orchestrator passes no attachment at all, so a valid row
in a dry run is logged "previewed" (dispatch succeeds without attachment,
nothing fails); an attachment error arises only when `send_email` is
explicitly given a path that does not exist, in which case it fails with
the attachment error message before any network or sleep event. -/
theorem attachment_handling_amended :
    (∀ (cfg : RunCfg) (idx : Nat) (row : Record) (sb : String × String),
      cfg.exfs cfg.resumePath = false → cfg.send = false →
      (validate_row row requiredFields).1 = true →
      render_template cfg.template row = Except.ok sb →
      processRow cfg idx row =
        Except.ok (true, [RunEv.logged "previewed" "dry-run previewed"])) ∧
    (∀ (ex : String → Bool) (res : Nat → SmtpResult)
       (to_email subject body p : String) (dr : Bool) (maxr : Nat) (bo : ℚ),
      ex p = false →
      send_email ex res to_email subject body (some p) dr maxr bo =
        ((false, "Attachment error: Attachment not found: " ++ p), [])) := by
  constructor
  · intro cfg idx row sb hres hsend hval hrender
    unfold processRow
    rw [if_pos hval, hrender]
    simp [hres, hsend, send_email]
  · intro ex res to_email subject body p dr maxr bo hex
    cases dr with
    | false => simp [send_email, hex]
    | true => simp [send_email, hex]

/-- Witness for the amended C4: the concrete dry-run configuration with a
missing resume file previews `goodRow`, and `send_email` given an
explicitly missing path fails with the attachment error and an empty
event trace. -/
theorem attachment_handling_amended_witness :
    processRow dryCfg 0 goodRow =
      Except.ok (true, [RunEv.logged "previewed" "dry-run previewed"]) ∧
    send_email (fun _ => false) (fun _ => SmtpResult.success) "a@b.c" "s" "b"
      (some "resume.pdf") true 3 2 =
      ((false, "Attachment error: Attachment not found: resume.pdf"), []) :=
  ⟨attachment_handling_amended.1 dryCfg 0 goodRow ("Hi", "Hello") rfl rfl
      (by rfl) (by rfl),
   attachment_handling_amended.2 (fun _ => false) (fun _ => SmtpResult.success)
      "a@b.c" "s" "b" "resume.pdf" true 3 2 rfl⟩

/-- Claim C5 (corrected) — counterexample.  The string "a@b." is non-blank,
has exactly one `@` and a `.` after it, so the claim says `validate_row`
accepts it; but `EMAIL_REGEX` requires a character after the final `.`
(and one between `@` and `.`), so the row is rejected with an
"Invalid email address" error. -/
theorem email_regex_claim_counterexample :
    claimEmailOk "a@b." = true ∧
    (validate_row [("Email", "a@b.")] []).1 = false ∧
    (validate_row [("Email", "a@b.")] []).2 =
      ["Invalid email address: " ++ quoted "a@b."] :=
  ⟨rfl, rfl, rfl⟩

/-- Claim C5 (corrected) — amended.  `validate_row` accepts the (trimmed)
email exactly when it has exactly one `@`, a nonempty local part before the
`@`, and a `.` in the domain that is neither the domain's first nor its
last character — equivalently, when `EMAIL_REGEX` matches. -/
theorem email_validation_amended :
    (∀ s : String, emailRegexMatch s = amendedEmailOk s) ∧
    (∀ row : Record,
      ((validate_row row []).1 = true ↔
        amendedEmailOk (pyStrip (rgetD row "Email" "")) = true)) := by
  refine ⟨emailRegexMatch_eq_amended, ?_⟩
  intro row
  rw [validate_row_fst, validate_row_errors]
  simp only [List.filter_nil, List.map_nil, List.nil_append]
  unfold emailErrs
  by_cases h1 : pyStrip (rgetD row "Email" "") = ""
  · rw [h1]
    decide
  · rw [if_neg h1, ← emailRegexMatch_eq_amended]
    by_cases h2 : emailRegexMatch (pyStrip (rgetD row "Email" "")) = true
    · simp [h2]
    · simp [h2]

/-- Claim C6 (confirmed).  `validate_row` collects every violation: the
error list is exactly one "Missing required field" entry for each required
field absent or blank, in the order of the required list, followed by the
email error if any; the returned flag is just emptiness of that list; and
on the spec's example (blank Name, non-blank malformed email) exactly two
error strings come back. -/
theorem validate_row_collects_all_violations (row : Record) (req : List String) :
    (validate_row row req).2 =
      (req.filter (fieldMissing row)).map
        (fun f => "Missing required field " ++ quoted f) ++ emailErrs row ∧
    (validate_row row req).1 = (validate_row row req).2.isEmpty ∧
    (validate_row c6Row requiredFields).2.length = 2 :=
  ⟨validate_row_errors row req, validate_row_fst row req, rfl⟩

/-- Claim C7 (confirmed).  A dry-run `send_email` produces no side-effect
events at all — in particular it never opens an SMTP connection and never
sleeps — and returns success with the "dry-run previewed" status exactly
when the attachment, if a path is given, exists; a missing attachment
yields the attachment failure with an empty event trace. -/
theorem send_email_dry_run_safe (ex : String → Bool) (res : Nat → SmtpResult)
    (to_email subject body : String) (att : Option String) (maxr : Nat) (bo : ℚ) :
    (send_email ex res to_email subject body att true maxr bo).2 = [] ∧
    (match att with
     | none =>
        send_email ex res to_email subject body none true maxr bo =
          ((true, "dry-run previewed"), [])
     | some p =>
        send_email ex res to_email subject body (some p) true maxr bo =
          (if ex p then ((true, "dry-run previewed"), [])
           else ((false, "Attachment error: Attachment not found: " ++ p), []))) := by
  refine ⟨send_email_dry_events ex res to_email subject body att maxr bo, ?_⟩
  cases att with
  | none => rfl
  | some p =>
      by_cases hp : ex p = true
      · simp [send_email, hp]
      · simp [send_email, hp]

/-- Claim C8 (confirmed).  `write_log_row` appends exactly one row of the
fixed 8-column schema: on an existing file the new content is the old
content with one row appended (so every previously written row is
unchanged — the old content is literally a prefix — and the row count grows
by one); on a missing file it writes the header first and then the row. -/
theorem write_log_row_append_only (now : String) (row : Record)
    (status message : String) :
    (∀ content, write_log_row now (some content) row status message =
        content ++ [logRow now row status message]) ∧
    (∀ content,
      (write_log_row now (some content) row status message).take content.length =
        content) ∧
    (∀ content,
      (write_log_row now (some content) row status message).length =
        content.length + 1) ∧
    write_log_row now none row status message =
      [logHeader, logRow now row status message] ∧
    (logRow now row status message).length = logHeader.length := by
  refine ⟨fun content => rfl, fun content => ?_, fun content => ?_, rfl, rfl⟩
  · exact List.take_left content [logRow now row status message]
  · simp [write_log_row]

/-- Claim C9 (confirmed).  For any tab-free clean CSV content, reading the
variant that puts a single space after each comma gives exactly the same
rows as reading the original: the repository's normalization
(`re.sub(",\s+" , ",")` after BOM stripping and tab replacement) maps both
to the same text, so any downstream parser sees identical input. -/
theorem read_csv_space_insensitive (parse : String → List Record) (c : String)
    (h : ∀ ch ∈ c.data, ch ≠ '\t') :
    read_csv parse (insertSpaceAfterCommas c) = read_csv parse c := by
  unfold read_csv
  rw [normalizeCSV_insert c h]

/-- Witness for C9 on a concrete two-line CSV and a concrete parser. -/
theorem read_csv_space_insensitive_witness :
    read_csv (fun s => [[("content", s)]]) (insertSpaceAfterCommas "SNo,Name\n1,Ann") =
      read_csv (fun s => [[("content", s)]]) "SNo,Name\n1,Ann" :=
  read_csv_space_insensitive (fun s => [[("content", s)]]) "SNo,Name\n1,Ann"
    (by decide)

/-- Claim C10 (confirmed).  A record whose `Email` is absent or blank after
trimming, with "Email" among the required fields, receives two distinct
error strings for this single field: the required-field error and the
"Email is empty" error. -/
theorem blank_email_double_error (row : Record) (req : List String)
    (h1 : "Email" ∈ req) (h2 : fieldMissing row "Email" = true) :
    ("Missing required field " ++ quoted "Email") ∈ (validate_row row req).2 ∧
    "Email is empty" ∈ (validate_row row req).2 ∧
    ("Missing required field " ++ quoted "Email") ≠ "Email is empty" := by
  rw [validate_row_errors]
  refine ⟨?_, ?_, by decide⟩
  · exact List.mem_append_left _
      (List.mem_map.mpr ⟨"Email", List.mem_filter.mpr ⟨h1, h2⟩, rfl⟩)
  · refine List.mem_append_right _ ?_
    unfold emailErrs
    rw [fieldMissing_email_blank row h2]
    simp

/-- Witness for C10: a row whose `Email` value is two spaces, validated
with `Email` required, receives both error strings. -/
theorem blank_email_double_error_witness :
    ("Missing required field " ++ quoted "Email") ∈
      (validate_row [("Email", "  ")] ["Email"]).2 ∧
    "Email is empty" ∈ (validate_row [("Email", "  ")] ["Email"]).2 ∧
    ("Missing required field " ++ quoted "Email") ≠ "Email is empty" :=
  blank_email_double_error [("Email", "  ")] ["Email"] (by simp) (by rfl)

end EmailAuto
